import Mathlib

/-!
Verification development for the vinyl music player (`script.js`,
class `VinylMusicPlayer`).

The JavaScript source is shallowly embedded as follows.

* RGBA pixel channels are bytes, modelled as `ℕ` (0–255).
* JavaScript numbers that only ever carry rational values in the code
  (rotation angle in degrees, playback times, speed multiplier) are
  modelled as `ℚ`; `NaN`-producing positions (`audio.duration` before
  metadata, a track index that became `NaN`) are modelled with `Option`,
  `none` standing for `NaN`/absent.
* The assigned `audio.playbackRate` is `playbackRate * 2^(pitch/12)`,
  an irrational real in general, so that one field is modelled as `ℝ`.
* Pointer angles: the source computes `Math.atan2` values in radians
  (range `[-π, π]`) and converts the applied delta to degrees with the
  factor `180/π`.  The model measures the pointer angle, the stored
  reference angle `lastAngle` and the wrap thresholds in degrees from
  the start: the positive linear unit change `x ↦ x * 180 / π` maps the
  source's thresholds `π`/`2π` to `180`/`360` exactly and commutes with
  every comparison and addition the source performs, so the degree
  model is the exact image of the radian code.
-/

/-- An RGB triple of byte channels, as produced by `getImageData` and by the
string keys `"r,g,b"` of `getDominantColors`. -/
structure RGB where
  red : ℕ
  green : ℕ
  blue : ℕ
  deriving DecidableEq, Repr

/-- The three-tone palette `{primary, lighter, darker}` built by
`getDominantColors` / `getDefaultColors`. -/
structure Palette where
  primary : RGB
  lighter : RGB
  darker : RGB
  deriving DecidableEq, Repr

/-- One RGBA pixel of a decoded cover image (`imageData.data[i..i+3]`). -/
structure Pixel where
  red : ℕ
  green : ℕ
  blue : ℕ
  alpha : ℕ
  deriving DecidableEq, Repr

/-- `getDefaultColors` (script.js:366-372): the hardcoded neutral palette. -/
def getDefaultColors : Palette :=
  { primary := ⟨42, 42, 42⟩, lighter := ⟨82, 82, 82⟩, darker := ⟨26, 26, 26⟩ }

/-- Channel quantization `Math.round(c / 51) * 51` (script.js:339-341).
For a byte `c`, `Math.round (c / 51) = ⌊c / 51 + 1 / 2⌋ = (2 * c + 51) / 102`
in natural division; `c / 51` is never a half-integer, so the rounding
direction at halves is irrelevant. -/
def quant (c : ℕ) : ℕ := ((2 * c + 51) / 102) * 51

/-- Quantize the three color channels of a pixel (script.js:339-343). -/
def quantPixel (p : Pixel) : RGB := ⟨quant p.red, quant p.green, quant p.blue⟩

/-- The sampling loop `for (i = 0; i < data.length; i += 4 * 10)`
(script.js:330): keep every 10th pixel of the buffer, starting at index 0. -/
def sampleEvery10 {α : Type} (l : List α) : List α :=
  (l.enum.filter fun q => q.1 % 10 == 0).map Prod.snd

/-- The quantized triples that `getDominantColors` tallies: every 10th pixel,
dropping those with `a < 125` (script.js:330-345). -/
def quantTriples (px : List Pixel) : List RGB :=
  ((sampleEvery10 px).filter fun p => 125 ≤ p.alpha).map quantPixel

/-- The bucket `getDominantColors` picks from the tally (script.js:347-356):
the key of maximal count, ties resolved toward the earliest-seen key
(`Object.entries` insertion order together with stable `sort`).  Folding over
all occurrences with a strict comparison returns exactly that key. -/
def pickPrimary (l : List RGB) : Option RGB :=
  match l with
  | [] => none
  | x :: xs => some (xs.foldl (fun b y => if l.count b < l.count y then y else b) x)

/-- `getDominantColors` (script.js:325-364): sample, filter by alpha,
quantize, tally, take the most frequent bucket as `primary`, derive
`lighter`/`darker` by `±40` clamped to `[0, 255]` (`Math.min (c+40) 255`,
`Math.max (c-40) 0`; the latter is truncated subtraction on `ℕ`).
An empty tally returns the default palette. -/
def getDominantColors (px : List Pixel) : Palette :=
  match pickPrimary (quantTriples px) with
  | none => getDefaultColors
  | some c =>
      { primary := c
        lighter := ⟨min (c.red + 40) 255, min (c.green + 40) 255, min (c.blue + 40) 255⟩
        darker := ⟨c.red - 40, c.green - 40, c.blue - 40⟩ }

/-- Track palette assignment at import, `metadata.colors || this.getDefaultColors()`
(script.js:232): `none` models a missing/failed metadata extraction. -/
def trackColors (metaColors : Option Palette) : Palette :=
  metaColors.getD getDefaultColors

/-- The `colors` field resolved by `extractMetadata` (script.js:262-285):
with no embedded picture the local `colors` stays `null` and the promise
resolves `colors || this.getDefaultColors()`; with a picture it is the
extraction result on the decoded pixels. -/
def extractMetadataColors (picture : Option (List Pixel)) : Palette :=
  match picture with
  | none => getDefaultColors
  | some px => getDominantColors px

/-- The spec's channel-wise palette rule: `lighter[c] = min(primary[c]+40, 255)`
and `darker[c] = max(primary[c]-40, 0)` for every channel `c`. -/
def paletteRule (p : Palette) : Prop :=
  (p.lighter.red : ℤ) = min ((p.primary.red : ℤ) + 40) 255 ∧
  (p.lighter.green : ℤ) = min ((p.primary.green : ℤ) + 40) 255 ∧
  (p.lighter.blue : ℤ) = min ((p.primary.blue : ℤ) + 40) 255 ∧
  (p.darker.red : ℤ) = max ((p.primary.red : ℤ) - 40) 0 ∧
  (p.darker.green : ℤ) = max ((p.primary.green : ℤ) - 40) 0 ∧
  (p.darker.blue : ℤ) = max ((p.primary.blue : ℤ) - 40) 0

instance (p : Palette) : Decidable (paletteRule p) := by
  unfold paletteRule; infer_instance

/-- Truncation toward zero, the rounding JavaScript's `%` operator applies to
the quotient. -/
def rtrunc (q : ℚ) : ℤ := if 0 ≤ q then ⌊q⌋ else ⌈q⌉

/-- JavaScript's remainder `x % y` on finite numbers with `y ≠ 0`:
`x - y * trunc (x / y)` (sign follows the dividend). -/
def jsMod (x y : ℚ) : ℚ := x - y * rtrunc (x / y)

/-- The rotation normalization `(rotation % 360 + 360) % 360` used by the
drag seek (script.js:643). -/
def normalize360 (θ : ℚ) : ℚ := jsMod (jsMod θ 360 + 360) 360

/-- The wrap-around correction of `drag` (script.js:631-635) in degree units:
`if (delta > 180) delta -= 360; if (delta < -180) delta += 360;`
(the source works in radians with thresholds `π` and `2π`). -/
def wrapDelta (d : ℚ) : ℚ :=
  let d1 := if 180 < d then d - 360 else d
  if d1 < -180 then d1 + 360 else d1

/-- The seek target of the drag handler (script.js:643-644):
`(normalized rotation / 360) * duration`. -/
def seekTarget (θ dur : ℚ) : ℚ := normalize360 θ / 360 * dur

/-- One track record as assembled by `handleFileUpload` (script.js:226-234).
`url = none` models a missing object URL. -/
structure Track where
  title : String
  artist : String
  album : String
  url : Option String
  colors : Palette
  deriving DecidableEq

/-- The mutable player state of `VinylMusicPlayer` that the claims are about.
`currentTrackIndex : Option ℤ` — `none` models `NaN` (JavaScript's `% 0`).
`audioDuration : Option ℚ` — `none` models `NaN` (metadata not loaded).
`rotation` and `lastAngle` are in degrees (see the module comment),
`audioPlaybackRate` is the real value last assigned to `audio.playbackRate`. -/
structure PlayerState where
  tracks : List Track
  currentTrackIndex : Option ℤ
  isPlaying : Bool
  isDragging : Bool
  rotation : ℚ
  lastAngle : ℚ
  playbackRate : ℚ
  pitchValue : ℤ
  audioSrc : Option String
  audioPlaybackRate : ℝ
  audioCurrentTime : ℚ
  audioDuration : Option ℚ

/-- The pitch factor `Math.pow(2, this.pitchValue / 12)` (script.js:552). -/
noncomputable def pitchFactor (p : ℤ) : ℝ := (2 : ℝ) ^ ((p : ℝ) / 12)

/-- `updatePlaybackRate` (script.js:550-562): assigns
`audio.playbackRate = this.playbackRate * pitchFactor`. -/
noncomputable def updatePlaybackRate (s : PlayerState) : PlayerState :=
  { s with audioPlaybackRate := (s.playbackRate : ℝ) * pitchFactor s.pitchValue }

/-- `changeSpeed` (script.js:538-542). -/
noncomputable def changeSpeed (v : ℚ) (s : PlayerState) : PlayerState :=
  updatePlaybackRate { s with playbackRate := v }

/-- `changePitch` (script.js:544-548). -/
noncomputable def changePitch (v : ℤ) (s : PlayerState) : PlayerState :=
  updatePlaybackRate { s with pitchValue := v }

/-- `resetEffects` (script.js:564-577): speed back to `1.0`, pitch to `0`,
then `updatePlaybackRate`. -/
noncomputable def resetEffects (s : PlayerState) : PlayerState :=
  updatePlaybackRate { s with playbackRate := 1, pitchValue := 0 }

/-- `play` (script.js:490-513): returns early when no `audio.src` is set,
otherwise starts playback. -/
def play (s : PlayerState) : PlayerState :=
  if s.audioSrc = none then s else { s with isPlaying := true }

/-- The track lookup `this.tracks[i]` for a possibly-`NaN`, possibly
out-of-range index. -/
def trackAt (s : PlayerState) (i : Option ℤ) : Option Track :=
  match i with
  | none => none
  | some i => if 0 ≤ i then s.tracks.get? i.toNat else none

/-- `loadTrack` (script.js:451-480): guard `if (!track || !track.url) return`,
then set `audio.src`, reset the effects and auto-play. -/
noncomputable def loadTrack (i : Option ℤ) (s : PlayerState) : PlayerState :=
  match trackAt s i with
  | none => s
  | some t =>
      match t.url with
      | none => s
      | some u => play (resetEffects { s with audioSrc := some u })

/-- The index update `(i - 1 + n) % n` of `previousTrack` (script.js:529) with
JavaScript `%` semantics: `NaN` in, or a modulus of `0`, gives `NaN`. -/
def prevIndex (i : Option ℤ) (n : ℕ) : Option ℤ :=
  match i with
  | none => none
  | some i => if n = 0 then none else some (Int.tmod (i - 1 + n) n)

/-- The index update `(i + 1) % n` of `nextTrack` (script.js:534). -/
def nextIndex (i : Option ℤ) (n : ℕ) : Option ℤ :=
  match i with
  | none => none
  | some i => if n = 0 then none else some (Int.tmod (i + 1) n)

/-- `previousTrack` (script.js:528-531): store the decremented wrapped index,
then load the track at it. -/
noncomputable def previousTrack (s : PlayerState) : PlayerState :=
  loadTrack (prevIndex s.currentTrackIndex s.tracks.length)
    { s with currentTrackIndex := prevIndex s.currentTrackIndex s.tracks.length }

/-- `nextTrack` (script.js:533-536): store the incremented wrapped index, then
load the track at it. -/
noncomputable def nextTrack (s : PlayerState) : PlayerState :=
  loadTrack (nextIndex s.currentTrackIndex s.tracks.length)
    { s with currentTrackIndex := nextIndex s.currentTrackIndex s.tracks.length }

/-- `openPlayer` (script.js:426-440) restricted to a valid track with a
source URL: records the index and loads the track.  (With no URL the source
only raises an alert and changes no modelled state.) -/
noncomputable def openPlayer (i : ℤ) (s : PlayerState) : PlayerState :=
  match trackAt s (some i) with
  | none => s
  | some t =>
      match t.url with
      | none => s
      | some _ => loadTrack (some i) { s with currentTrackIndex := some i }

/-- `updateTime` (script.js:579-589), the per-`timeupdate` playback tick:
advances the rotation by `this.playbackRate * 2` degrees only while playing
and not dragging. -/
def updateTime (s : PlayerState) : PlayerState :=
  if s.isPlaying && !s.isDragging then
    { s with rotation := s.rotation + s.playbackRate * 2 }
  else s

/-- `startDrag` (script.js:608-618): raise the flag and record the pointer
angle as reference. -/
def startDrag (pointerAngle : ℚ) (s : PlayerState) : PlayerState :=
  { s with isDragging := true, lastAngle := pointerAngle }

/-- `drag` (script.js:620-651): early return unless dragging; otherwise apply
the wrap-corrected delta to the rotation, update the reference angle, and —
when `audio.duration` is truthy — seek to the rotation-proportional position
unless the change is within the `0.1 s` deadband. -/
def drag (pointerAngle : ℚ) (s : PlayerState) : PlayerState :=
  if !s.isDragging then s
  else
    let delta := wrapDelta (pointerAngle - s.lastAngle)
    let s1 := { s with rotation := s.rotation + delta, lastAngle := pointerAngle }
    match s1.audioDuration with
    | none => s1
    | some dur =>
        if dur = 0 then s1
        else
          let newTime := seekTarget s1.rotation dur
          if 1 / 10 < |s1.audioCurrentTime - newTime| then
            { s1 with audioCurrentTime := newTime }
          else s1

/-- `endDrag` (script.js:653-656). -/
def endDrag (s : PlayerState) : PlayerState := { s with isDragging := false }

/-! ### Lemmas about the rotation normalization -/

theorem jsMod_def (x y : ℚ) : jsMod x y = x - y * rtrunc (x / y) := rfl

theorem jsMod_of_nonneg (x : ℚ) (h0 : 0 ≤ x) :
    jsMod x 360 = x - 360 * ⌊x / 360⌋ := by
  rw [jsMod_def, rtrunc, if_pos (div_nonneg h0 (by norm_num))]

theorem jsMod_of_neg (x : ℚ) (h0 : x < 0) :
    jsMod x 360 = x - 360 * ⌈x / 360⌉ := by
  have : ¬ (0 : ℚ) ≤ x / 360 := by
    rw [not_le]
    exact div_neg_of_neg_of_pos h0 (by norm_num)
  rw [jsMod_def, rtrunc, if_neg this]

theorem jsMod_lower_of_nonneg (x : ℚ) (h0 : 0 ≤ x) : 0 ≤ jsMod x 360 := by
  rw [jsMod_of_nonneg x h0]
  have h1 : (⌊x / 360⌋ : ℚ) ≤ x / 360 := Int.floor_le _
  rw [le_div_iff₀ (by norm_num : (0:ℚ) < 360)] at h1
  linarith

theorem jsMod_upper_of_nonneg (x : ℚ) (h0 : 0 ≤ x) : jsMod x 360 < 360 := by
  rw [jsMod_of_nonneg x h0]
  have h2 : x / 360 < ⌊x / 360⌋ + 1 := Int.lt_floor_add_one _
  rw [div_lt_iff₀ (by norm_num : (0:ℚ) < 360)] at h2
  linarith

/-- The key closed form: the double-remainder normalization is the
mathematical mod, `θ - 360 * ⌊θ / 360⌋`. -/
theorem normalize360_eq (θ : ℚ) : normalize360 θ = θ - 360 * ⌊θ / 360⌋ := by
  unfold normalize360
  rcases le_or_lt 0 θ with h0 | h0
  · -- first remainder lands in [0, 360); adding 360 gives [360, 720)
    rw [jsMod_of_nonneg θ h0]
    set n : ℤ := ⌊θ / 360⌋ with hn
    have hj0 : 0 ≤ θ - 360 * n := by
      have h1 : (n : ℚ) ≤ θ / 360 := Int.floor_le _
      rw [le_div_iff₀ (by norm_num : (0:ℚ) < 360)] at h1
      linarith
    have hj1 : θ - 360 * n < 360 := by
      have h2 : θ / 360 < n + 1 := Int.lt_floor_add_one _
      rw [div_lt_iff₀ (by norm_num : (0:ℚ) < 360)] at h2
      linarith
    rw [jsMod_of_nonneg _ (by linarith)]
    have : ⌊(θ - 360 * n + 360) / 360⌋ = 1 := by
      apply Int.floor_eq_iff.mpr
      constructor
      · rw [le_div_iff₀ (by norm_num : (0:ℚ) < 360)]
        push_cast
        linarith
      · rw [div_lt_iff₀ (by norm_num : (0:ℚ) < 360)]
        push_cast
        linarith
    rw [this]
    push_cast
    ring
  · -- θ < 0: first remainder lands in (-360, 0]; adding 360 gives (0, 360]
    rw [jsMod_of_neg θ h0]
    set m : ℤ := ⌈θ / 360⌉ with hm
    have hj0 : θ - 360 * m ≤ 0 := by
      have h1 : θ / 360 ≤ (m : ℚ) := Int.le_ceil _
      rw [div_le_iff₀ (by norm_num : (0:ℚ) < 360)] at h1
      linarith
    have hj1 : -360 < θ - 360 * m := by
      have h2 : (m : ℚ) < θ / 360 + 1 := Int.ceil_lt_add_one (θ / 360)
      have h3 : (m : ℚ) - 1 < θ / 360 := by linarith
      rw [lt_div_iff₀ (by norm_num : (0:ℚ) < 360)] at h3
      linarith
    rcases lt_or_eq_of_le hj0 with hjlt | hjeq
    · -- the shifted value is in (0, 360): the second remainder is the identity
      have harg0 : (0:ℚ) ≤ θ - 360 * m + 360 := by linarith
      rw [jsMod_of_nonneg _ harg0]
      have hfl : ⌊(θ - 360 * m + 360) / 360⌋ = 0 := by
        apply Int.floor_eq_iff.mpr
        constructor
        · push_cast
          exact div_nonneg harg0 (by norm_num)
        · push_cast
          rw [div_lt_iff₀ (by norm_num : (0:ℚ) < 360)]
          linarith
      have hm1 : m = ⌊θ / 360⌋ + 1 := by
        have h3 : θ / 360 < (m : ℚ) := by
          rw [div_lt_iff₀ (by norm_num : (0:ℚ) < 360)]
          linarith
        have h4 : ⌊θ / 360⌋ < m := Int.floor_lt.mpr h3
        have h5 : m ≤ ⌊θ / 360⌋ + 1 := Int.ceil_le_floor_add_one _
        omega
      rw [hfl, hm1]
      push_cast
      ring
    · -- θ is a negative multiple of 360: the shifted value is exactly 360
      have h360 : θ - 360 * m + 360 = 360 := by linarith
      rw [h360, jsMod_of_nonneg _ (by norm_num)]
      have hone : ⌊(360:ℚ) / 360⌋ = 1 := by
        rw [div_self (by norm_num : (360:ℚ) ≠ 0)]
        exact Int.floor_one
      have hfloor : ⌊θ / 360⌋ = m := by
        have hq : θ / 360 = (m : ℚ) := by
          field_simp
          linarith
        rw [hq, Int.floor_intCast]
      rw [hone, hfloor]
      push_cast
      linarith

/-- The normalization always lands in `[0, 360)`. -/
theorem normalize360_nonneg (θ : ℚ) : 0 ≤ normalize360 θ := by
  rw [normalize360_eq]
  have h1 : (⌊θ / 360⌋ : ℚ) ≤ θ / 360 := Int.floor_le _
  rw [le_div_iff₀ (by norm_num : (0:ℚ) < 360)] at h1
  linarith

theorem normalize360_lt (θ : ℚ) : normalize360 θ < 360 := by
  rw [normalize360_eq]
  have h2 : θ / 360 < ⌊θ / 360⌋ + 1 := Int.lt_floor_add_one _
  rw [div_lt_iff₀ (by norm_num : (0:ℚ) < 360)] at h2
  linarith

/-- The normalization fixes every value already in `[0, 360)`. -/
theorem normalize360_fix {x : ℚ} (h0 : 0 ≤ x) (h1 : x < 360) :
    normalize360 x = x := by
  rw [normalize360_eq]
  have : ⌊x / 360⌋ = 0 := by
    apply Int.floor_eq_iff.mpr
    constructor
    · push_cast
      exact div_nonneg h0 (by norm_num)
    · push_cast
      rw [div_lt_iff₀ (by norm_num : (0:ℚ) < 360)]
      linarith
  rw [this]
  push_cast
  ring

/-! ### Lemmas about the drag handler and the wrap correction -/

theorem wrapDelta_bounds {d : ℚ} (h1 : -360 ≤ d) (h2 : d ≤ 360) :
    -180 ≤ wrapDelta d ∧ wrapDelta d ≤ 180 := by
  unfold wrapDelta
  dsimp only
  split <;> split <;> constructor <;> linarith

/-- If the first wrap correction fires, the corrected value is never below
`-180`, so the second correction cannot fire on it: no double correction. -/
theorem wrapDelta_no_double {d : ℚ} (h : 180 < d) : ¬ d - 360 < -180 := by
  linarith

/-- The state produced by a `drag` event while dragging: the wrap-corrected
delta is added to the rotation and the reference angle is replaced; only the
seek may additionally move `audioCurrentTime`. -/
theorem drag_core (a : ℚ) (s : PlayerState) (h : s.isDragging = true) :
    (drag a s).rotation = s.rotation + wrapDelta (a - s.lastAngle) ∧
    (drag a s).lastAngle = a := by
  unfold drag
  simp only [h, Bool.not_true, Bool.false_eq_true, if_false]
  rcases hd : s.audioDuration with _ | dur
  · simp [hd]
  · simp only [hd]
    by_cases h0 : dur = 0
    · simp [h0]
    · simp only [h0, if_false]
      split <;> simp

/-- A `drag` event while the dragging flag is down changes nothing
(script.js:621, early return). -/
theorem drag_not_dragging (a : ℚ) (s : PlayerState) (h : s.isDragging = false) :
    drag a s = s := by
  unfold drag
  simp [h]

/-- The seek part of `drag`: with a truthy duration, the new rotation is
mapped through `seekTarget` and applied exactly when the deadband is
exceeded. -/
theorem drag_seek (a : ℚ) (s : PlayerState) (dur : ℚ) (h : s.isDragging = true)
    (hd : s.audioDuration = some dur) (hd0 : dur ≠ 0) :
    (drag a s).audioCurrentTime =
      if 1 / 10 < |s.audioCurrentTime - seekTarget (s.rotation + wrapDelta (a - s.lastAngle)) dur|
      then seekTarget (s.rotation + wrapDelta (a - s.lastAngle)) dur
      else s.audioCurrentTime := by
  unfold drag
  simp only [h, Bool.not_true, Bool.false_eq_true, if_false, hd, if_neg hd0]
  split <;> simp

/-- Without a truthy duration there is no seek (script.js:642). -/
theorem drag_no_seek (a : ℚ) (s : PlayerState) (h : s.isDragging = true)
    (hd : s.audioDuration = none ∨ s.audioDuration = some 0) :
    (drag a s).audioCurrentTime = s.audioCurrentTime := by
  unfold drag
  rcases hd with hd | hd <;> simp [h, hd]

/-! ### Lemmas about track loading -/

theorem play_fields (s : PlayerState) :
    (play s).playbackRate = s.playbackRate ∧ (play s).pitchValue = s.pitchValue ∧
    (play s).audioPlaybackRate = s.audioPlaybackRate ∧
    (play s).currentTrackIndex = s.currentTrackIndex ∧ (play s).tracks = s.tracks := by
  unfold play
  split <;> simp

theorem loadTrack_index (i : Option ℤ) (s : PlayerState) :
    (loadTrack i s).currentTrackIndex = s.currentTrackIndex ∧
    (loadTrack i s).tracks = s.tracks := by
  unfold loadTrack
  rcases ht : trackAt s i with _ | t
  · simp [ht]
  · rcases hu : t.url with _ | u
    · simp [ht, hu]
    · simp only [ht, hu, play, resetEffects, updatePlaybackRate]
      split <;> simp

/-- Loading a valid track resets the speed, the pitch and the assigned
transport rate: `loadTrack` runs `resetEffects` before auto-play. -/
theorem loadTrack_resets (i : Option ℤ) (s : PlayerState) (t : Track) (u : String)
    (ht : trackAt s i = some t) (hu : t.url = some u) :
    (loadTrack i s).playbackRate = 1 ∧ (loadTrack i s).pitchValue = 0 ∧
    (loadTrack i s).audioPlaybackRate = 1 := by
  unfold loadTrack
  simp only [ht, hu]
  simp [play, resetEffects, updatePlaybackRate, pitchFactor]

/-! ### Lemmas about the dominant-color pick -/

/-- The strict-improvement fold of `pickPrimary` returns a value that is the
start or a list member, never decreases the score, and dominates every list
member. -/
theorem foldl_pick_spec (cnt : RGB → ℕ) (xs : List RGB) :
    ∀ b : RGB,
      (xs.foldl (fun u y => if cnt u < cnt y then y else u) b = b ∨
        xs.foldl (fun u y => if cnt u < cnt y then y else u) b ∈ xs) ∧
      cnt b ≤ cnt (xs.foldl (fun u y => if cnt u < cnt y then y else u) b) ∧
      ∀ u ∈ xs, cnt u ≤ cnt (xs.foldl (fun u y => if cnt u < cnt y then y else u) b) := by
  induction xs with
  | nil => simp
  | cons x xs ih =>
      intro b
      simp only [List.foldl_cons]
      obtain ⟨hmem, hle, hall⟩ := ih (if cnt b < cnt x then x else b)
      have hb' : cnt b ≤ cnt (if cnt b < cnt x then x else b) := by
        split
        · next hlt => exact le_of_lt hlt
        · exact le_rfl
      have hx' : cnt x ≤ cnt (if cnt b < cnt x then x else b) := by
        split
        · exact le_rfl
        · next hnlt => exact le_of_not_lt hnlt
      refine ⟨?_, le_trans hb' hle, ?_⟩
      · rcases hmem with h | h
        · rw [h]
          split
          · right
            exact List.mem_cons_self _ _
          · left
            rfl
        · right
          exact List.mem_cons_of_mem _ h
      · intro u hu
        rcases List.mem_cons.mp hu with rfl | hu
        · exact le_trans hx' hle
        · exact hall u hu

/-- `pickPrimary` returns a member of the tally list whose count is maximal. -/
theorem pickPrimary_spec (l : List RGB) (t : RGB) (h : pickPrimary l = some t) :
    t ∈ l ∧ ∀ u ∈ l, l.count u ≤ l.count t := by
  rcases l with _ | ⟨x, xs⟩
  · simp [pickPrimary] at h
  · simp only [pickPrimary, Option.some.injEq] at h
    obtain ⟨hmem, hle, hall⟩ := foldl_pick_spec (fun y => (x :: xs).count y) xs x
    rw [h] at hmem hle hall
    constructor
    · rcases hmem with h' | h'
      · rw [h']
        exact List.mem_cons_self _ _
      · exact List.mem_cons_of_mem _ h'
    · intro u hu
      rcases List.mem_cons.mp hu with rfl | hu
      · exact hle
      · exact hall u hu

theorem pickPrimary_eq_none_iff (l : List RGB) : pickPrimary l = none ↔ l = [] := by
  rcases l with _ | ⟨x, xs⟩ <;> simp [pickPrimary]

/-- Every palette that `getDominantColors` derives from a nonempty tally
satisfies the channel-wise `±40` clamp rule. -/
theorem getDominantColors_rule (px : List Pixel) :
    paletteRule (getDominantColors px) ∨ getDominantColors px = getDefaultColors := by
  unfold getDominantColors
  rcases h : pickPrimary (quantTriples px) with _ | c
  · right
    rfl
  · left
    unfold paletteRule
    refine ⟨?_, ?_, ?_, ?_, ?_, ?_⟩ <;> simp only [] <;> push_cast <;> omega

/-! ### Concrete states used by witnesses and counterexamples -/

/-- A track with a source URL, as built by `handleFileUpload`. -/
def sampleTrack : Track :=
  { title := "track", artist := "artist", album := "", url := some "blob:demo",
    colors := getDefaultColors }

/-- The initial state of `VinylMusicPlayer` (constructor, script.js:22-32):
empty registry, index `0`, nothing playing, no drag in progress. -/
def baseState : PlayerState :=
  { tracks := [], currentTrackIndex := some 0, isPlaying := false, isDragging := false,
    rotation := 0, lastAngle := 0, playbackRate := 1, pitchValue := 0,
    audioSrc := none, audioPlaybackRate := 1, audioCurrentTime := 0, audioDuration := none }

/-- Playing, not dragging, speed `1`, pitch `0`. -/
def tickState : PlayerState := { baseState with isPlaying := true }

/-- Playing, not dragging, speed `1`, pitch `+12` semitones (effective
transport rate `2`). -/
def pitchedState : PlayerState := { baseState with isPlaying := true, pitchValue := 12 }

/-- Mid-drag with the reference pointer angle at `90°`. -/
def dragState : PlayerState := { baseState with isDragging := true, lastAngle := 90 }

/-- Mid-drag on a 200-second track positioned at `50 s`. -/
def seekState : PlayerState :=
  { baseState with isDragging := true, audioDuration := some 200, audioCurrentTime := 50 }

/-- One imported track, with speed/pitch/transport rate deliberately away
from their defaults. -/
def loadedState : PlayerState :=
  { baseState with
    tracks := [sampleTrack]
    playbackRate := 2
    pitchValue := 5
    audioPlaybackRate := 3 }

/-- A single opaque pixel buffer. -/
def px0 : List Pixel := [⟨10, 60, 110, 255⟩]

/-! ### The claims -/

/-- Claim C9: the normalization `(θ % 360 + 360) % 360` used to map the
rotation to a seek position is idempotent and its result always lies in
`[0, 360)`. -/
theorem C9_normalize_idempotent_and_range (θ : ℚ) :
    normalize360 (normalize360 θ) = normalize360 θ ∧
    0 ≤ normalize360 θ ∧ normalize360 θ < 360 :=
  ⟨normalize360_fix (normalize360_nonneg θ) (normalize360_lt θ),
    normalize360_nonneg θ, normalize360_lt θ⟩

/-- Claim C2 (amended): for every drag update with both pointer angles in the
`atan2` range (`[-180°, 180°]` in degree units), the delta between the new
pointer angle and the stored reference angle is normalized into
`[-180°, +180°]` by at most one wrap-around correction — a fired first
correction makes the second test false, so no double correction ever
happens — hence the rotation change applied by one update never exceeds
`180°` in magnitude; the reference angle is then updated to the new pointer
angle.  (The claim's half-open interval `(-180°, +180°]` is wrong: a raw
delta of exactly `-180°` is left uncorrected, see `C2_counterexample`.) -/
theorem C2_wrap_once (s : PlayerState) (cur : ℚ)
    (hdrag : s.isDragging = true)
    (hc1 : -180 ≤ cur) (hc2 : cur ≤ 180)
    (hl1 : -180 ≤ s.lastAngle) (hl2 : s.lastAngle ≤ 180) :
    -180 ≤ wrapDelta (cur - s.lastAngle) ∧ wrapDelta (cur - s.lastAngle) ≤ 180 ∧
    (drag cur s).rotation = s.rotation + wrapDelta (cur - s.lastAngle) ∧
    (drag cur s).lastAngle = cur ∧
    (∀ d : ℚ, 180 < d → ¬ d - 360 < -180) := by
  obtain ⟨hb1, hb2⟩ := wrapDelta_bounds (d := cur - s.lastAngle) (by linarith) (by linarith)
  exact ⟨hb1, hb2, (drag_core cur s hdrag).1, (drag_core cur s hdrag).2,
    fun d hd => by linarith⟩

theorem C2_witness :
    dragState.isDragging = true ∧
    (-180 ≤ wrapDelta ((-90 : ℚ) - dragState.lastAngle) ∧
      wrapDelta ((-90 : ℚ) - dragState.lastAngle) ≤ 180 ∧
      (drag (-90) dragState).rotation =
        dragState.rotation + wrapDelta ((-90 : ℚ) - dragState.lastAngle) ∧
      (drag (-90) dragState).lastAngle = -90 ∧
      (∀ d : ℚ, 180 < d → ¬ d - 360 < -180)) :=
  ⟨rfl, C2_wrap_once dragState (-90) rfl (by norm_num) (by norm_num)
    (by norm_num [dragState, baseState]) (by norm_num [dragState, baseState])⟩

/-- Claim C2, counterexample to the stated interval: dragging from reference
angle `90°` to pointer angle `-90°` gives a raw delta of exactly `-180°`,
which neither correction touches, so the applied rotation change is `-180°` —
outside the claimed `(-180°, +180°]`. -/
theorem C2_counterexample :
    (drag (-90) dragState).rotation - dragState.rotation = -180 ∧
    (drag (-90) dragState).rotation - dragState.rotation ∉ Set.Ioc (-180 : ℚ) 180 := by
  have h := (drag_core (-90) dragState rfl).1
  have e : wrapDelta ((-90 : ℚ) - dragState.lastAngle) = -180 := by
    unfold wrapDelta
    norm_num [dragState, baseState]
  constructor
  · rw [h, e]
    ring
  · rw [h, e]
    norm_num

/-- Claim C3: during a drag update with a known nonzero duration, the seek
target is `(normalize(rotation, 0, 360) / 360) × duration` computed from the
post-update rotation, and the seek is applied exactly when
`|target − currentTime| > 0.1 s` (a request within the `0.1 s` deadband is
dropped); with a zero or unknown duration no seek is issued.  Scenario:
duration `200 s` gives target `0 s` at angle `0`, `100 s` at angle `180`, and
`≈ 199.94 s` at angle `359.9`. -/
theorem C3_seek_deadband (s : PlayerState) (a : ℚ) (h : s.isDragging = true) :
    (∀ dur : ℚ, s.audioDuration = some dur → dur ≠ 0 →
      (drag a s).audioCurrentTime =
        if 1 / 10 < |seekTarget ((drag a s).rotation) dur - s.audioCurrentTime|
        then seekTarget ((drag a s).rotation) dur
        else s.audioCurrentTime) ∧
    (s.audioDuration = none ∨ s.audioDuration = some 0 →
      (drag a s).audioCurrentTime = s.audioCurrentTime) ∧
    seekTarget 0 200 = 0 ∧ seekTarget 180 200 = 100 ∧
    |seekTarget (3599 / 10) 200 - 19994 / 100| < 1 / 100 := by
  refine ⟨?_, drag_no_seek a s h, ?_, ?_, ?_⟩
  · intro dur hd hd0
    rw [(drag_core a s h).1, drag_seek a s dur h hd hd0, abs_sub_comm]
  · unfold seekTarget
    rw [normalize360_fix (by norm_num) (by norm_num)]
    norm_num
  · unfold seekTarget
    rw [normalize360_fix (by norm_num) (by norm_num)]
    norm_num
  · unfold seekTarget
    rw [normalize360_fix (by norm_num) (by norm_num)]
    have e : (3599 : ℚ) / 10 / 360 * 200 - 19994 / 100 = 1 / 225 := by norm_num
    rw [e, abs_of_pos (by norm_num)]
    norm_num

theorem C3_witness :
    seekState.isDragging = true ∧ seekState.audioDuration = some 200 ∧ (200 : ℚ) ≠ 0 ∧
    (drag 90 seekState).audioCurrentTime =
      (if 1 / 10 < |seekTarget ((drag 90 seekState).rotation) 200 - seekState.audioCurrentTime|
       then seekTarget ((drag 90 seekState).rotation) 200
       else seekState.audioCurrentTime) :=
  ⟨rfl, rfl, by norm_num, (C3_seek_deadband seekState 90 rfl).1 200 rfl (by norm_num)⟩

/-- Claim C1 (amended): while the dragging flag is true, the rotation angle is
mutated only by drag updates and every playback tick is a no-op on the whole
state; while the flag is false, a drag event is a no-op and the rotation is
mutated only by playback ticks, each tick (while playing) advancing it by the
speed multiplier `playbackRate` times the fixed per-tick increment `k = 2`
degrees.  (The claim's "effective playback rate" is wrong: the tick uses the
raw speed multiplier and ignores the pitch factor, see
`C1_counterexample`.) -/
theorem C1_rotation_mutual_exclusion (s : PlayerState) (a : ℚ) :
    (s.isDragging = true → updateTime s = s) ∧
    (s.isDragging = false → drag a s = s) ∧
    (s.isDragging = false → s.isPlaying = true →
      (updateTime s).rotation = s.rotation + s.playbackRate * 2) ∧
    (s.isDragging = true → (drag a s).rotation = s.rotation + wrapDelta (a - s.lastAngle)) ∧
    (startDrag a s).rotation = s.rotation ∧
    (endDrag s).rotation = s.rotation := by
  refine ⟨?_, fun h => drag_not_dragging a s h, ?_, fun h => (drag_core a s h).1, rfl, rfl⟩
  · intro h
    unfold updateTime
    simp [h]
  · intro h hp
    unfold updateTime
    simp [h, hp]

theorem C1_witness :
    tickState.isDragging = false ∧ tickState.isPlaying = true ∧
    (updateTime tickState).rotation = tickState.rotation + tickState.playbackRate * 2 :=
  ⟨rfl, rfl, (C1_rotation_mutual_exclusion tickState 0).2.2.1 rfl rfl⟩

/-- Claim C1, counterexample to "effective playback rate": there is no fixed
per-tick increment `k` with tick advance `= effective rate × k` across
states.  With speed `1`/pitch `0` the tick advances the rotation by `2` and
the effective rate is `1`; with speed `1`/pitch `+12` the tick still advances
by `2` while the effective rate is `2` — the first forces `k = 2`, the second
`k = 1`. -/
theorem C1_counterexample :
    ¬ ∃ k : ℝ,
      (((updateTime tickState).rotation - tickState.rotation : ℚ) : ℝ) =
        (tickState.playbackRate : ℝ) * pitchFactor tickState.pitchValue * k ∧
      (((updateTime pitchedState).rotation - pitchedState.rotation : ℚ) : ℝ) =
        (pitchedState.playbackRate : ℝ) * pitchFactor pitchedState.pitchValue * k := by
  rintro ⟨k, h1, h2⟩
  have e1 : ((updateTime tickState).rotation - tickState.rotation : ℚ) = 2 := by
    unfold updateTime
    norm_num [tickState, baseState]
  have e2 : ((updateTime pitchedState).rotation - pitchedState.rotation : ℚ) = 2 := by
    unfold updateTime
    norm_num [pitchedState, baseState]
  have p0 : pitchFactor tickState.pitchValue = 1 := by
    show pitchFactor 0 = 1
    unfold pitchFactor
    norm_num
  have p12 : pitchFactor pitchedState.pitchValue = 2 := by
    show pitchFactor 12 = 2
    unfold pitchFactor
    rw [show ((12 : ℤ) : ℝ) / 12 = 1 by norm_num, Real.rpow_one]
  rw [e1, p0] at h1
  rw [e2, p12] at h2
  have hr1 : (tickState.playbackRate : ℝ) = 1 := by norm_num [tickState, baseState]
  have hr2 : (pitchedState.playbackRate : ℝ) = 1 := by norm_num [pitchedState, baseState]
  rw [hr1] at h1
  rw [hr2] at h2
  push_cast at h1 h2
  linarith

/-- Claim C4: after `changeSpeed s` and `changePitch p` (in either order) the
playback element's rate equals `s × 2^(p/12)`; in particular speed `1.5` with
pitch `+12` gives `3.0`, and speed `1.0` with pitch `-12` gives `0.5`. -/
theorem C4_effective_rate (s : PlayerState) (v : ℚ) (p : ℤ) :
    (changePitch p (changeSpeed v s)).audioPlaybackRate =
      (v : ℝ) * (2 : ℝ) ^ ((p : ℝ) / 12) ∧
    (changeSpeed v (changePitch p s)).audioPlaybackRate =
      (v : ℝ) * (2 : ℝ) ^ ((p : ℝ) / 12) ∧
    (changePitch 12 (changeSpeed (3 / 2) s)).audioPlaybackRate = 3 ∧
    (changePitch (-12) (changeSpeed 1 s)).audioPlaybackRate = 1 / 2 := by
  have key : ∀ (w : ℚ) (q : ℤ),
      (changePitch q (changeSpeed w s)).audioPlaybackRate =
        (w : ℝ) * (2 : ℝ) ^ ((q : ℝ) / 12) := by
    intro w q
    simp [changePitch, changeSpeed, updatePlaybackRate, pitchFactor]
  refine ⟨key v p, ?_, ?_, ?_⟩
  · simp [changePitch, changeSpeed, updatePlaybackRate, pitchFactor]
  · rw [key (3 / 2) 12, show ((12 : ℤ) : ℝ) / 12 = 1 by norm_num, Real.rpow_one]
    norm_num
  · rw [key 1 (-12), show ((-12 : ℤ) : ℝ) / 12 = ((-1 : ℤ) : ℝ) by norm_num,
      Real.rpow_intCast]
    norm_num

set_option maxRecDepth 4096 in
/-- Claim C5: color extraction is deterministic on identical pixel buffers and
follows the coded steps — sample every 10th pixel, skip pixels with alpha
below `125` (the ~49% opacity threshold), quantize each channel to the
nearest multiple of `51` in `0–255`, tally the quantized triples, take a
highest-frequency bucket as `primary`, and derive
`lighter[c] = min(primary[c]+40, 255)`, `darker[c] = max(primary[c]-40, 0)`;
if no opaque pixel is sampled the default palette is returned. -/
theorem C5_color_extraction (px : List Pixel) :
    (∀ px2 : List Pixel, px = px2 → getDominantColors px = getDominantColors px2) ∧
    (quantTriples px = [] → getDominantColors px = getDefaultColors) ∧
    (quantTriples px ≠ [] → ∃ t, pickPrimary (quantTriples px) = some t) ∧
    (∀ t : RGB, pickPrimary (quantTriples px) = some t →
      t ∈ quantTriples px ∧
      (∀ u ∈ quantTriples px, (quantTriples px).count u ≤ (quantTriples px).count t) ∧
      getDominantColors px =
        { primary := t
          lighter := ⟨min (t.red + 40) 255, min (t.green + 40) 255, min (t.blue + 40) 255⟩
          darker := ⟨t.red - 40, t.green - 40, t.blue - 40⟩ }) ∧
    (∀ c : ℕ, c < 256 →
      51 ∣ quant c ∧ quant c ≤ 255 ∧
      ∀ j : ℕ, j < 6 → ((c : ℤ) - quant c).natAbs ≤ ((c : ℤ) - 51 * j).natAbs) := by
  refine ⟨fun _ h => by rw [h], ?_, ?_, ?_, ?_⟩
  · intro h
    unfold getDominantColors
    rw [(pickPrimary_eq_none_iff _).mpr h]
  · intro h
    rcases hp : pickPrimary (quantTriples px) with _ | t
    · exact absurd ((pickPrimary_eq_none_iff _).mp hp) h
    · exact ⟨t, rfl⟩
  · intro t ht
    obtain ⟨hmem, hmax⟩ := pickPrimary_spec _ t ht
    refine ⟨hmem, hmax, ?_⟩
    unfold getDominantColors
    rw [ht]
  · decide

theorem C5_witness :
    pickPrimary (quantTriples px0) = some ⟨0, 51, 102⟩ ∧
    (⟨0, 51, 102⟩ ∈ quantTriples px0 ∧
      (∀ u ∈ quantTriples px0, (quantTriples px0).count u ≤
        (quantTriples px0).count ⟨0, 51, 102⟩) ∧
      getDominantColors px0 =
        { primary := ⟨0, 51, 102⟩
          lighter := ⟨min (0 + 40) 255, min (51 + 40) 255, min (102 + 40) 255⟩
          darker := ⟨0 - 40, 51 - 40, 102 - 40⟩ }) :=
  ⟨by decide, (C5_color_extraction px0).2.2.2.1 ⟨0, 51, 102⟩ (by decide)⟩

/-- Claim C6 (amended): every track palette — the default for a track without
usable cover art, or an extracted one — either satisfies the channel-wise
rule `lighter = primary + 40` / `darker = primary − 40` (clamped to
`[0, 255]`) or is the default palette; importing a file with no embedded
cover art yields exactly the default palette
`{(42,42,42), (82,82,82), (26,26,26)}`.  (The claim's universal channel-wise
invariant is wrong for the default palette itself: its darker tone is
`(26,26,26)`, not the `(2,2,2)` the rule demands, see
`C6_counterexample`.) -/
theorem C6_palette_invariant (m : Option Palette)
    (hm : m = none ∨ ∃ px : List Pixel, m = some (getDominantColors px)) :
    (paletteRule (trackColors m) ∨ trackColors m = getDefaultColors) ∧
    (m = none →
      trackColors m =
        { primary := ⟨42, 42, 42⟩, lighter := ⟨82, 82, 82⟩, darker := ⟨26, 26, 26⟩ }) ∧
    extractMetadataColors none = getDefaultColors := by
  refine ⟨?_, ?_, rfl⟩
  · rcases hm with rfl | ⟨px, rfl⟩
    · right
      rfl
    · simpa [trackColors] using getDominantColors_rule px
  · rintro rfl
    rfl

theorem C6_witness :
    ((none : Option Palette) = none ∨
      ∃ px : List Pixel, (none : Option Palette) = some (getDominantColors px)) ∧
    ((paletteRule (trackColors none) ∨ trackColors none = getDefaultColors) ∧
      ((none : Option Palette) = none →
        trackColors none =
          { primary := ⟨42, 42, 42⟩, lighter := ⟨82, 82, 82⟩, darker := ⟨26, 26, 26⟩ }) ∧
      extractMetadataColors none = getDefaultColors) :=
  ⟨Or.inl rfl, C6_palette_invariant none (Or.inl rfl)⟩

/-- Claim C6, counterexample: a track imported with no embedded art carries
the default palette, whose darker tone `(26,26,26)` differs from the
channel-wise `max(primary − 40, 0) = (2,2,2)` that the claimed invariant
demands of every track's palette. -/
theorem C6_counterexample :
    trackColors none = getDefaultColors ∧
    ¬ paletteRule getDefaultColors ∧
    getDefaultColors.darker = ⟨26, 26, 26⟩ ∧
    max ((getDefaultColors.primary.red : ℤ) - 40) 0 = 2 :=
  ⟨rfl, by decide, rfl, by decide⟩

/-- Claim C7: for a registry of `n ≥ 1` tracks and a current index in
`0..n-1`, `previousTrack` sets the current index to `(i - 1 + n) mod n` and
`nextTrack` sets it to `(i + 1) mod n` (mathematical mod, since the operands
are nonnegative here). -/
theorem C7_wraparound_navigation (s : PlayerState) (i : ℤ) (n : ℕ)
    (hn : s.tracks.length = n) (hn1 : 1 ≤ n)
    (hi : s.currentTrackIndex = some i) (hi0 : 0 ≤ i) (_hin : i < (n : ℤ)) :
    (previousTrack s).currentTrackIndex = some ((i - 1 + (n : ℤ)) % (n : ℤ)) ∧
    (nextTrack s).currentTrackIndex = some ((i + 1) % (n : ℤ)) := by
  have hcast : (1 : ℤ) ≤ (n : ℤ) := by exact_mod_cast hn1
  constructor
  · unfold previousTrack
    rw [(loadTrack_index _ _).1]
    show prevIndex s.currentTrackIndex s.tracks.length = _
    rw [hi, hn]
    simp only [prevIndex]
    rw [if_neg (by omega : ¬ n = 0)]
    rw [Int.tmod_eq_emod (by omega) (by omega)]
  · unfold nextTrack
    rw [(loadTrack_index _ _).1]
    show nextIndex s.currentTrackIndex s.tracks.length = _
    rw [hi, hn]
    simp only [nextIndex]
    rw [if_neg (by omega : ¬ n = 0)]
    rw [Int.tmod_eq_emod (by omega) (by omega)]

/-- Three imported tracks, current index `0`. -/
def threeTrackState : PlayerState :=
  { baseState with tracks := [sampleTrack, sampleTrack, sampleTrack] }

/-- Three imported tracks, current index `2`. -/
def threeTrackState2 : PlayerState :=
  { threeTrackState with currentTrackIndex := some 2 }

theorem C7_witness :
    (previousTrack threeTrackState).currentTrackIndex = some 2 ∧
    (nextTrack threeTrackState2).currentTrackIndex = some 0 := by
  obtain ⟨h1, _⟩ := C7_wraparound_navigation threeTrackState 0 3 rfl (by norm_num) rfl
    (by norm_num) (by norm_num)
  obtain ⟨_, h2⟩ := C7_wraparound_navigation threeTrackState2 2 3 rfl (by norm_num) rfl
    (by norm_num) (by norm_num)
  rw [h1, h2]
  constructor <;> decide

/-- Claim C8 (code defect): with an empty registry, `nextTrack` and
`previousTrack` are not guarded: the source evaluates
`(index ± 1 + 0) % 0`, which is `NaN` in JavaScript (modelled as `none`),
and stores it in `currentTrackIndex` — the index does not remain a valid
unchanged value.  (`loadTrack` then returns early on the undefined lookup,
so no other field changes, but the corrupted index persists.) -/
theorem C8_empty_registry_unguarded :
    baseState.tracks.length = 0 ∧
    baseState.currentTrackIndex = some 0 ∧
    (nextTrack baseState).currentTrackIndex = none ∧
    (previousTrack baseState).currentTrackIndex = none ∧
    (nextTrack baseState).currentTrackIndex ≠ baseState.currentTrackIndex := by
  refine ⟨rfl, rfl, ?_, ?_, ?_⟩
  · unfold nextTrack
    rw [(loadTrack_index _ _).1]
    rfl
  · unfold previousTrack
    rw [(loadTrack_index _ _).1]
    rfl
  · unfold nextTrack
    rw [(loadTrack_index _ _).1]
    simp [nextIndex, baseState]

/-- Claim C10 (implicit): loading any track that exists and has a source URL
runs `resetEffects`, so after the load — directly, via `openPlayer`, or via
`nextTrack`/`previousTrack` (which also cover the automatic advance on track
end, script.js:147) — the speed multiplier is `1`, the pitch shift is `0`,
and the assigned transport rate is exactly `1`, whatever the previous
settings were. -/
theorem C10_load_resets_effects (s : PlayerState) (i : ℤ) (t : Track) (u : String)
    (h0 : 0 ≤ i) (ht : s.tracks.get? i.toNat = some t) (hu : t.url = some u) :
    (loadTrack (some i) s).playbackRate = 1 ∧
    (loadTrack (some i) s).pitchValue = 0 ∧
    (loadTrack (some i) s).audioPlaybackRate = 1 ∧
    (openPlayer i s).playbackRate = 1 ∧
    (openPlayer i s).pitchValue = 0 ∧
    (openPlayer i s).audioPlaybackRate = 1 ∧
    (∀ (j : ℤ) (t2 : Track) (u2 : String),
      nextIndex s.currentTrackIndex s.tracks.length = some j → 0 ≤ j →
      s.tracks.get? j.toNat = some t2 → t2.url = some u2 →
      (nextTrack s).playbackRate = 1 ∧ (nextTrack s).pitchValue = 0 ∧
      (nextTrack s).audioPlaybackRate = 1) ∧
    (∀ (j : ℤ) (t2 : Track) (u2 : String),
      prevIndex s.currentTrackIndex s.tracks.length = some j → 0 ≤ j →
      s.tracks.get? j.toNat = some t2 → t2.url = some u2 →
      (previousTrack s).playbackRate = 1 ∧ (previousTrack s).pitchValue = 0 ∧
      (previousTrack s).audioPlaybackRate = 1) := by
  have htA : trackAt s (some i) = some t := by
    simp only [trackAt]
    rw [if_pos h0, ht]
  obtain ⟨r1, r2, r3⟩ := loadTrack_resets (some i) s t u htA hu
  have htA2 : trackAt { s with currentTrackIndex := some i } (some i) = some t := by
    simp only [trackAt]
    rw [if_pos h0]
    exact ht
  obtain ⟨o1, o2, o3⟩ := loadTrack_resets (some i)
    { s with currentTrackIndex := some i } t u htA2 hu
  have hop : openPlayer i s = loadTrack (some i) { s with currentTrackIndex := some i } := by
    unfold openPlayer
    simp only [htA, hu]
  refine ⟨r1, r2, r3, ?_, ?_, ?_, ?_, ?_⟩
  · rw [hop]
    exact o1
  · rw [hop]
    exact o2
  · rw [hop]
    exact o3
  · intro j t2 u2 hj hj0 ht2 hu2
    unfold nextTrack
    refine loadTrack_resets _ _ t2 u2 ?_ hu2
    rw [hj]
    simp only [trackAt]
    rw [if_pos hj0]
    exact ht2
  · intro j t2 u2 hj hj0 ht2 hu2
    unfold previousTrack
    refine loadTrack_resets _ _ t2 u2 ?_ hu2
    rw [hj]
    simp only [trackAt]
    rw [if_pos hj0]
    exact ht2

theorem C10_witness :
    (0 : ℤ) ≤ 0 ∧ loadedState.tracks.get? (0 : ℤ).toNat = some sampleTrack ∧
    sampleTrack.url = some "blob:demo" ∧
    (loadTrack (some 0) loadedState).playbackRate = 1 ∧
    (loadTrack (some 0) loadedState).pitchValue = 0 ∧
    (loadTrack (some 0) loadedState).audioPlaybackRate = 1 :=
  have h := C10_load_resets_effects loadedState 0 sampleTrack "blob:demo"
    (le_refl 0) rfl rfl
  ⟨le_refl 0, rfl, rfl, h.1, h.2.1, h.2.2.1⟩
